import Mathlib

/-!
Verification of the quiz-engine core of QUISQUEYA_QUIZ_SYSTEME.py: the data
model (Question, ReponseQuestion, results), the session engine MoteurQuiz,
the question bank BanqueQuestions, and the score store Stockage, as a
shallow embedding in Lean.  Python machine values are modelled as follows:
Python ints are Int (counters that start at 0 and only grow are Nat),
Python floats are exact rationals, JSON values are the inductive JValue,
Python dicts are association lists with distinct keys, and wall-clock
reads (timestamps, durations) are passed in as explicit parameters.
Randomness (random.shuffle / random.sample) is modelled by an explicitly
passed reordering function, constrained to produce permutations where a
result depends on it.
-/

namespace Quisqueya

/-- Values produced by json.load: null, booleans, integers, strings, arrays
and objects.  Non-integral JSON numbers are omitted from the model; no
claim involves fractional fields in question files. -/
inductive JValue where
  | null : JValue
  | bool (b : Bool) : JValue
  | int (n : Int) : JValue
  | str (s : String) : JValue
  | arr (elems : List JValue) : JValue
  | obj (fields : List (String × JValue)) : JValue

/-- A single-quote character, used by the Python repr of strings. -/
def squote : String := String.singleton (Char.ofNat 39)

/-- Python repr of a JSON value, used by str() on containers. -/
def pyRepr : JValue → String
  | .null => "None"
  | .bool b => if b then "True" else "False"
  | .int n => toString n
  | .str s => squote ++ s ++ squote
  | .arr l => "[" ++ String.intercalate ", " (l.attach.map (fun x => pyRepr x.1)) ++ "]"
  | .obj l => "\x7b" ++ String.intercalate ", " (l.attach.map (fun x => squote ++ x.1.1 ++ squote ++ ": " ++ pyRepr x.1.2)) ++ "\x7d"
decreasing_by
  · have h := List.sizeOf_lt_of_mem x.2
    simp
    omega
  · have h := List.sizeOf_lt_of_mem x.2
    obtain ⟨⟨k, v⟩, hm⟩ := x
    simp at h ⊢
    omega

/-- Python str() of a JSON value: the string itself for strings, repr
otherwise.  Total, as str() never raises. -/
def pyStr (v : JValue) : String :=
  match v with
  | .str s => s
  | w => pyRepr w

/-- Python int() coercion of a JSON value: succeeds on ints and booleans,
parses integer literals from strings (surrounding whitespace stripped),
and raises (returns none) on null, arrays and objects. -/
def pyInt : JValue → Option Int
  | .int n => some n
  | .bool b => some (if b then 1 else 0)
  | .str s => s.trim.toInt?
  | _ => none

/-- Python list() coercion of a JSON value: the elements of an array, the
one-character strings of a string, the keys of an object; raises (returns
none) on null, booleans and ints. -/
def pyList : JValue → Option (List JValue)
  | .arr l => some l
  | .str s => some (s.data.map (fun c => .str (String.singleton c)))
  | .obj l => some (l.map (fun p => .str p.1))
  | _ => none

/-- Constant NOMBRE_QUESTIONS_MAX from the source. -/
def NOMBRE_QUESTIONS_MAX : Nat := 10

/-- Dataclass Question.  Option entries are kept as the raw JSON values the
loader put there (the source coerces the options field with list() but not
its elements). -/
structure Question where
  id : Int
  theme : String
  niveau : String
  texte : String
  options : List JValue
  bonne_option : Int

/-- Question.est_reponse_correcte: the index equals the correct option. -/
def Question.est_reponse_correcte (q : Question) (index : Int) : Bool :=
  index == q.bonne_option

/-- Dataclass ReponseQuestion: one entry of the answer history. -/
structure ReponseQuestion where
  numero : Nat
  question : Question
  reponse_choisie : Option Int
  est_correcte : Bool
  temps_ecoule : Bool
  temps_reponse : ℚ

/-- Python round() to the nearest integer: round half to even, on exact
rationals. -/
def rint (q : ℚ) : ℤ :=
  let f := ⌊q⌋
  let r := q - (f : ℚ)
  if r < 1/2 then f
  else if 1/2 < r then f + 1
  else if f % 2 = 0 then f else f + 1

/-- Python round(x, 1): round to one decimal place. -/
def round1 (q : ℚ) : ℚ := (rint (10 * q) : ℚ) / 10

/-- State of class MoteurQuiz.  The wall-clock fields horodatage_debut and
horodatage_fin are omitted: they feed only the duration, which no claim
concerns. -/
structure MoteurQuiz where
  questions : List Question
  nom_joueur : String
  index_question_actuelle : Nat
  score : Nat
  bonnes : Nat
  mauvaises : Nat
  temps_ecoules : Nat
  historique_reponses : List ReponseQuestion

/-- MoteurQuiz.__init__: a fresh session over a question list. -/
def MoteurQuiz.initial (questions : List Question) (nom_joueur : String) : MoteurQuiz :=
  { questions := questions, nom_joueur := nom_joueur, index_question_actuelle := 0,
    score := 0, bonnes := 0, mauvaises := 0, temps_ecoules := 0, historique_reponses := [] }

/-- MoteurQuiz.obtenir_question_actuelle: the question at the current
index, none once the index has advanced past the last question. -/
def MoteurQuiz.obtenir_question_actuelle (m : MoteurQuiz) : Option Question :=
  m.questions[m.index_question_actuelle]?

/-- MoteurQuiz.obtenir_numero_question: 1-based number of the current
question. -/
def MoteurQuiz.obtenir_numero_question (m : MoteurQuiz) : Nat :=
  m.index_question_actuelle + 1

/-- MoteurQuiz.obtenir_total_questions. -/
def MoteurQuiz.obtenir_total_questions (m : MoteurQuiz) : Nat :=
  m.questions.length

/-- MoteurQuiz.est_termine: current index has reached the question count. -/
def MoteurQuiz.est_termine (m : MoteurQuiz) : Bool :=
  m.questions.length ≤ m.index_question_actuelle

/-- MoteurQuiz.enregistrer_reponse: record one answer, update the score and
the counters, append to the history, advance the index; no-op when no
current question exists. -/
def MoteurQuiz.enregistrer_reponse (m : MoteurQuiz) (index_reponse : Option Int)
    (temps_ecoule : Bool) (temps_reponse : ℚ) : MoteurQuiz :=
  match m.obtenir_question_actuelle with
  | none => m
  | some question =>
    let est_correcte : Bool := !temps_ecoule && index_reponse.any (fun i => question.est_reponse_correcte i)
    let reponse : ReponseQuestion :=
      { numero := m.obtenir_numero_question, question := question,
        reponse_choisie := index_reponse, est_correcte := est_correcte,
        temps_ecoule := temps_ecoule, temps_reponse := temps_reponse }
    { m with
      bonnes := if est_correcte then m.bonnes + 1 else m.bonnes,
      score := if est_correcte then m.score + 1 else m.score,
      mauvaises := if est_correcte then m.mauvaises else m.mauvaises + 1,
      temps_ecoules := if !est_correcte && temps_ecoule then m.temps_ecoules + 1 else m.temps_ecoules,
      historique_reponses := m.historique_reponses ++ [reponse],
      index_question_actuelle := m.index_question_actuelle + 1 }

/-- Result dictionary built by MoteurQuiz.obtenir_resultats, restricted to
the fields that do not read the wall clock; id_partie and duree_seconds
are derived from time.time() and are omitted, date_heure is passed in. -/
structure Resultats where
  joueur_nom : String
  date_heure : String
  theme : String
  niveau : String
  nombre_questions : Nat
  bonnes : Nat
  mauvaises : Nat
  temps_ecoules : Nat
  score_total : Nat
  pourcentage : ℚ

/-- MoteurQuiz.obtenir_resultats: the final summary of a session.  The
date_heure argument stands for datetime.now(timezone.utc).isoformat(). -/
def MoteurQuiz.obtenir_resultats (m : MoteurQuiz) (date_heure : String) : Resultats :=
  let total := m.questions.length
  let pourcentage : ℚ := if 0 < total then round1 (((m.bonnes : ℚ) / (total : ℚ)) * 100) else 0
  { joueur_nom := m.nom_joueur,
    date_heure := date_heure,
    theme := if (m.questions.map Question.theme).dedup.length = 1
             then (m.questions.map Question.theme).head?.getD "" else "mix",
    niveau := if (m.questions.map Question.niveau).dedup.length = 1
              then (m.questions.map Question.niveau).head?.getD "" else "mix",
    nombre_questions := total,
    bonnes := m.bonnes,
    mauvaises := m.mauvaises,
    temps_ecoules := m.temps_ecoules,
    score_total := m.score,
    pourcentage := pourcentage }

/-- Inputs of one enregistrer_reponse call, as supplied by the
presentation layer. -/
structure SaisieReponse where
  index_reponse : Option Int
  temps_ecoule : Bool
  temps_reponse : ℚ

/-- Driving a session: one enregistrer_reponse call per list entry. -/
def MoteurQuiz.executer (m : MoteurQuiz) (saisies : List SaisieReponse) : MoteurQuiz :=
  saisies.foldl (fun s e => s.enregistrer_reponse e.index_reponse e.temps_ecoule e.temps_reponse) m

/-- Concrete question used by witnesses. -/
def qTemoin1 : Question :=
  { id := 1, theme := "Histoire", niveau := "facile", texte := "T1",
    options := [JValue.str "x", JValue.str "y"], bonne_option := 0 }

/-- Second concrete question used by witnesses. -/
def qTemoin2 : Question :=
  { id := 2, theme := "Geographie", niveau := "facile", texte := "T2",
    options := [JValue.str "x", JValue.str "y"], bonne_option := 1 }

/-- Third concrete question used by witnesses. -/
def qTemoin3 : Question :=
  { id := 3, theme := "Histoire", niveau := "moyen", texte := "T3",
    options := [JValue.str "x", JValue.str "y", JValue.str "z"], bonne_option := 2 }

/-- C1: for every session state with a current question, enregistrer_reponse
judges the answer correct iff temps_ecoule is false, an index is supplied and
it equals the question's correct-option index; a correct answer increments
bonnes and score by exactly 1, a timeout increments mauvaises and
temps_ecoules by exactly 1, and a wrong explicit choice increments only
mauvaises by 1. -/
theorem c1_enregistrer_reponse_cas (m : MoteurQuiz) (ir : Option Int) (te : Bool)
    (tr : ℚ) (q : Question) (hq : m.obtenir_question_actuelle = some q) :
    (∃ r : ReponseQuestion,
      (m.enregistrer_reponse ir te tr).historique_reponses = m.historique_reponses ++ [r] ∧
      (r.est_correcte = true ↔ te = false ∧ ir = some q.bonne_option)) ∧
    (te = false ∧ ir = some q.bonne_option →
      (m.enregistrer_reponse ir te tr).bonnes = m.bonnes + 1 ∧
      (m.enregistrer_reponse ir te tr).score = m.score + 1 ∧
      (m.enregistrer_reponse ir te tr).mauvaises = m.mauvaises ∧
      (m.enregistrer_reponse ir te tr).temps_ecoules = m.temps_ecoules) ∧
    (te = true →
      (m.enregistrer_reponse ir te tr).mauvaises = m.mauvaises + 1 ∧
      (m.enregistrer_reponse ir te tr).temps_ecoules = m.temps_ecoules + 1 ∧
      (m.enregistrer_reponse ir te tr).bonnes = m.bonnes ∧
      (m.enregistrer_reponse ir te tr).score = m.score) ∧
    (∀ i : Int, te = false → ir = some i → i ≠ q.bonne_option →
      (m.enregistrer_reponse ir te tr).mauvaises = m.mauvaises + 1 ∧
      (m.enregistrer_reponse ir te tr).temps_ecoules = m.temps_ecoules ∧
      (m.enregistrer_reponse ir te tr).bonnes = m.bonnes ∧
      (m.enregistrer_reponse ir te tr).score = m.score) := by
  simp only [MoteurQuiz.enregistrer_reponse, hq]
  refine ⟨⟨_, rfl, ?_⟩, ?_, ?_, ?_⟩
  · cases te <;> cases ir <;>
      simp [Question.est_reponse_correcte]
  · rintro ⟨hte, hir⟩
    subst hte; subst hir
    simp [Question.est_reponse_correcte]
  · rintro hte
    subst hte
    simp
  · rintro i hte hir hne
    subst hte; subst hir
    simp [Question.est_reponse_correcte, hne]

/-- Witness for C1 at a concrete state: one question, correct answer 0
chosen without timeout. -/
theorem c1_enregistrer_reponse_cas_witness :
    ((MoteurQuiz.initial [qTemoin1] "Ana").enregistrer_reponse (some 0) false 1).bonnes =
      (MoteurQuiz.initial [qTemoin1] "Ana").bonnes + 1 ∧
    ((MoteurQuiz.initial [qTemoin1] "Ana").enregistrer_reponse (some 0) false 1).score =
      (MoteurQuiz.initial [qTemoin1] "Ana").score + 1 := by
  have h := c1_enregistrer_reponse_cas (MoteurQuiz.initial [qTemoin1] "Ana")
    (some 0) false 1 qTemoin1 rfl
  exact ⟨(h.2.1 ⟨rfl, rfl⟩).1, (h.2.1 ⟨rfl, rfl⟩).2.1⟩

/-- The questions of a session are never changed by recording an answer. -/
theorem questions_enregistrer (m : MoteurQuiz) (ir : Option Int) (te : Bool) (tr : ℚ) :
    (m.enregistrer_reponse ir te tr).questions = m.questions := by
  cases hq : m.obtenir_question_actuelle <;>
    simp [MoteurQuiz.enregistrer_reponse, hq]

/-- Inductive invariant of a session: history length equals the current
index, answered questions split into correct and incorrect, the score
equals the correct count, and the index never passes the question count. -/
def SessionInv (m : MoteurQuiz) : Prop :=
  m.historique_reponses.length = m.index_question_actuelle ∧
  m.bonnes + m.mauvaises = m.index_question_actuelle ∧
  m.score = m.bonnes ∧
  m.index_question_actuelle ≤ m.questions.length

/-- A fresh session satisfies the invariant. -/
theorem sessionInv_initial (qs : List Question) (nom : String) :
    SessionInv (MoteurQuiz.initial qs nom) := by
  simp [SessionInv, MoteurQuiz.initial]

/-- Recording an answer preserves the invariant and advances the index to
min (index + 1) total. -/
theorem sessionInv_enregistrer (m : MoteurQuiz) (ir : Option Int) (te : Bool) (tr : ℚ)
    (h : SessionInv m) :
    SessionInv (m.enregistrer_reponse ir te tr) ∧
    (m.enregistrer_reponse ir te tr).index_question_actuelle =
      min (m.index_question_actuelle + 1) m.questions.length := by
  obtain ⟨h1, h2, h3, h4⟩ := h
  cases hq : m.obtenir_question_actuelle with
  | none =>
    have hlen : m.questions.length ≤ m.index_question_actuelle := by
      by_contra hc
      push_neg at hc
      rw [MoteurQuiz.obtenir_question_actuelle] at hq
      simp [List.getElem?_eq_getElem hc] at hq
    constructor
    · simpa [MoteurQuiz.enregistrer_reponse, hq, SessionInv] using ⟨h1, h2, h3, h4⟩
    · simp only [MoteurQuiz.enregistrer_reponse, hq]
      omega
  | some q =>
    constructor
    · simp only [MoteurQuiz.enregistrer_reponse, hq, SessionInv]
      refine ⟨by simp [h1], ?_, ?_, ?_⟩
      · split_ifs <;> omega
      · split_ifs <;> omega
      · have hlt : m.index_question_actuelle < m.questions.length := by
          by_contra hc
          push_neg at hc
          rw [MoteurQuiz.obtenir_question_actuelle, List.getElem?_eq_none hc] at hq
          exact Option.noConfusion hq
        omega
    · have hlt : m.index_question_actuelle < m.questions.length := by
        by_contra hc
        push_neg at hc
        rw [MoteurQuiz.obtenir_question_actuelle, List.getElem?_eq_none hc] at hq
        exact Option.noConfusion hq
      simp only [MoteurQuiz.enregistrer_reponse, hq]
      omega

/-- Running any list of answer-submission calls preserves the invariant,
keeps the question list, and moves the index to min (index + calls) total. -/
theorem sessionInv_executer (saisies : List SaisieReponse) (m : MoteurQuiz)
    (h : SessionInv m) :
    SessionInv (m.executer saisies) ∧
    (m.executer saisies).questions = m.questions ∧
    (m.executer saisies).index_question_actuelle =
      min (m.index_question_actuelle + saisies.length) m.questions.length := by
  induction saisies generalizing m with
  | nil =>
    refine ⟨h, rfl, ?_⟩
    have h4 := h.2.2.2
    simp only [MoteurQuiz.executer, List.foldl_nil, List.length_nil]
    omega
  | cons e rest ih =>
    have hstep : m.executer (e :: rest) =
        (m.enregistrer_reponse e.index_reponse e.temps_ecoule e.temps_reponse).executer rest := by
      simp [MoteurQuiz.executer]
    obtain ⟨hInv, hidx⟩ := sessionInv_enregistrer m e.index_reponse e.temps_ecoule e.temps_reponse h
    obtain ⟨i1, i2, i3⟩ := ih _ hInv
    rw [hstep]
    refine ⟨i1, by rw [i2, questions_enregistrer], ?_⟩
    rw [i3, hidx, questions_enregistrer]
    have h4 := h.2.2.2
    simp only [List.length_cons]
    omega

/-- The answer inputs of the scenario of C2: correct, wrong, timed out. -/
def saisiesScenario : List SaisieReponse :=
  [ { index_reponse := some 0, temps_ecoule := false, temps_reponse := 2 },
    { index_reponse := some 0, temps_ecoule := false, temps_reponse := 3 },
    { index_reponse := none, temps_ecoule := true, temps_reponse := 20 } ]

/-- The engine state after the scenario of C2 is played out by Ana. -/
def moteurScenario : MoteurQuiz :=
  (MoteurQuiz.initial [qTemoin1, qTemoin2, qTemoin3] "Ana").executer saisiesScenario

/-- The summary of the scenario of C2. -/
def resultatsScenario : Resultats :=
  moteurScenario.obtenir_resultats "2026-01-01T00:00:00+00:00"

/-- Percentage field of a summary, unfolded. -/
theorem pourcentage_obtenir_resultats (m : MoteurQuiz) (dh : String) :
    (m.obtenir_resultats dh).pourcentage =
      if 0 < m.questions.length
      then round1 ((m.bonnes : ℚ) / (m.questions.length : ℚ) * 100)
      else 0 := rfl

/-- C2: in every session driven by calling enregistrer_reponse, the history
length always equals the current index; when exactly one call is made per
question the session completes with bonnes + mauvaises equal to the total
question count and a score equal to bonnes; the three-question scenario
(correct, wrong, timed out, player Ana) yields bonnes 1, mauvaises 2,
temps_ecoules 1, score 1 and percentage 33.3. -/
theorem c2_session_comptes (questions : List Question) (nom : String)
    (saisies : List SaisieReponse) :
    ((MoteurQuiz.initial questions nom).executer saisies).historique_reponses.length =
      ((MoteurQuiz.initial questions nom).executer saisies).index_question_actuelle ∧
    (saisies.length = questions.length →
      ((MoteurQuiz.initial questions nom).executer saisies).index_question_actuelle =
        questions.length ∧
      ((MoteurQuiz.initial questions nom).executer saisies).bonnes +
        ((MoteurQuiz.initial questions nom).executer saisies).mauvaises = questions.length ∧
      ((MoteurQuiz.initial questions nom).executer saisies).score =
        ((MoteurQuiz.initial questions nom).executer saisies).bonnes) ∧
    (resultatsScenario.bonnes = 1 ∧ resultatsScenario.mauvaises = 2 ∧
      resultatsScenario.temps_ecoules = 1 ∧ resultatsScenario.score_total = 1 ∧
      resultatsScenario.pourcentage = 333 / 10) := by
  obtain ⟨⟨j1, j2, j3, j4⟩, hq, hidx⟩ :=
    sessionInv_executer saisies (MoteurQuiz.initial questions nom) (sessionInv_initial questions nom)
  refine ⟨j1, ?_, ?_, ?_, ?_, ?_, ?_⟩
  · intro hlen
    have e1 : (MoteurQuiz.initial questions nom).index_question_actuelle = 0 := rfl
    have e2 : (MoteurQuiz.initial questions nom).questions = questions := rfl
    rw [e1, e2] at hidx
    rw [hq, e2] at j4
    refine ⟨by omega, by omega, j3⟩
  · rfl
  · rfl
  · rfl
  · rfl
  · have hb : moteurScenario.bonnes = 1 := rfl
    have hl : moteurScenario.questions.length = 3 := rfl
    rw [resultatsScenario, pourcentage_obtenir_resultats, hb, hl]
    norm_num [round1, rint]

/-- Witness for C2 at the scenario input: three calls on three questions
complete the session with matching counts. -/
theorem c2_session_comptes_witness :
    moteurScenario.index_question_actuelle = 3 ∧
    moteurScenario.bonnes + moteurScenario.mauvaises = 3 ∧
    moteurScenario.score = moteurScenario.bonnes := by
  have h := (c2_session_comptes [qTemoin1, qTemoin2, qTemoin3] "Ana" saisiesScenario).2.1 rfl
  exact h

/-- C3: for every session, the percentage of the summary equals
round(bonnes / total * 100, 1) when the question count is positive and 0.0
when it is zero: the division is guarded. -/
theorem c3_pourcentage_formule (m : MoteurQuiz) (dh : String) :
    (0 < m.questions.length →
      (m.obtenir_resultats dh).pourcentage =
        round1 ((m.bonnes : ℚ) / (m.questions.length : ℚ) * 100)) ∧
    (m.questions.length = 0 → (m.obtenir_resultats dh).pourcentage = 0) := by
  rw [pourcentage_obtenir_resultats]
  constructor
  · intro h
    rw [if_pos h]
  · intro h
    rw [if_neg (by omega)]

/-- Witness for C3: the scenario session has three questions and its
percentage is round(1/3*100, 1). -/
theorem c3_pourcentage_formule_witness :
    (moteurScenario.obtenir_resultats "d").pourcentage =
      round1 ((moteurScenario.bonnes : ℚ) / (moteurScenario.questions.length : ℚ) * 100) :=
  (c3_pourcentage_formule moteurScenario "d").1 (by decide)

/-- C4: once the session is complete (index at or past the question count),
enregistrer_reponse is a no-op: the whole state, in particular score,
the three counters, the history and the index, is unchanged. -/
theorem c4_enregistrer_apres_fin (m : MoteurQuiz) (ir : Option Int) (te : Bool)
    (tr : ℚ) (h : m.est_termine = true) :
    m.enregistrer_reponse ir te tr = m := by
  have hlen : m.questions.length ≤ m.index_question_actuelle := by
    simpa [MoteurQuiz.est_termine] using h
  rw [MoteurQuiz.enregistrer_reponse, MoteurQuiz.obtenir_question_actuelle,
    List.getElem?_eq_none hlen]

/-- Witness for C4: submitting after the one-question session is finished
changes nothing. -/
theorem c4_enregistrer_apres_fin_witness :
    ((MoteurQuiz.initial [qTemoin1] "Ana").enregistrer_reponse (some 0) false 1).enregistrer_reponse (some 1) false 1 =
      (MoteurQuiz.initial [qTemoin1] "Ana").enregistrer_reponse (some 0) false 1 :=
  c4_enregistrer_apres_fin _ (some 1) false 1 (by rfl)

/-- Python truthiness of an optional list: an omitted or empty list is
falsy, so `if themes:` runs the filter only for a non-empty list. -/
def optListTruthy : Option (List String) → Bool
  | none => false
  | some l => !l.isEmpty

/-- State of class BanqueQuestions: the stored question list. -/
structure BanqueQuestions where
  questions : List Question

/-- BanqueQuestions.filtrer: keep the questions whose theme is among the
given themes and whose level is among the given levels; a missing or empty
filter is a no-op.  With both filters inactive the source returns the
self.questions list object itself (aliasing that matters for sampling). -/
def BanqueQuestions.filtrer (b : BanqueQuestions) (themes niveaux : Option (List String)) :
    List Question :=
  let resultat := b.questions
  let resultat := if optListTruthy themes
    then resultat.filter (fun q => (themes.getD []).contains q.theme) else resultat
  if optListTruthy niveaux
    then resultat.filter (fun q => (niveaux.getD []).contains q.niveau) else resultat

/-- BanqueQuestions.echantillonner_questions: clamp the requested count to
NOMBRE_QUESTIONS_MAX, filter by themes, then either shuffle the whole pool
and take a prefix (pool small enough) or draw a sample without
replacement.  The melange argument stands for the permutation drawn by
random.shuffle / random.sample; a sample of n without replacement is the
n-prefix of a permutation of the pool.  The returned BanqueQuestions is
the bank state after the call: random.shuffle mutates its list argument
in place, and when no theme filter applied that list is the bank's own
self.questions, so the stored order is the shuffled one. -/
def BanqueQuestions.echantillonner_questions (b : BanqueQuestions) (nombre : Nat)
    (themes : Option (List String)) (melange : List Question → List Question) :
    List Question × BanqueQuestions :=
  let n := min nombre NOMBRE_QUESTIONS_MAX
  let reserve := b.filtrer themes none
  if reserve.isEmpty then ([], b)
  else if reserve.length ≤ n then
    let shuffled := melange reserve
    (shuffled.take n, if optListTruthy themes then b else { questions := shuffled })
  else ((melange reserve).take n, b)

/-- Filtering with no active filter returns the stored list itself. -/
theorem filtrer_none (b : BanqueQuestions) : b.filtrer none none = b.questions := rfl

/-- C5: for a filtered pool of N distinct questions with N at most 10,
sampling with requested count 10 returns exactly min(N, 10) questions,
without duplicates and all from the pool; an empty pool gives the empty
sequence, and no requested count ever yields more than 10 questions. -/
theorem c5_echantillonner_taille (b : BanqueQuestions) (themes : Option (List String))
    (melange : List Question → List Question)
    (hperm : ∀ l, (melange l).Perm l) :
    ((b.filtrer themes none).Nodup → (b.filtrer themes none).length ≤ 10 →
      (b.echantillonner_questions 10 themes melange).1.length =
        min (b.filtrer themes none).length 10 ∧
      (b.echantillonner_questions 10 themes melange).1.Nodup) ∧
    (b.filtrer themes none = [] → (b.echantillonner_questions 10 themes melange).1 = []) ∧
    (∀ nombre : Nat, (b.echantillonner_questions nombre themes melange).1.length ≤ 10) ∧
    (∀ q ∈ (b.echantillonner_questions 10 themes melange).1, q ∈ b.filtrer themes none) := by
  have hlen : ∀ l : List Question, (melange l).length = l.length :=
    fun l => (hperm l).length_eq
  by_cases hvide : (b.filtrer themes none).isEmpty
  · have hnil : b.filtrer themes none = [] := by
      simpa [List.isEmpty_iff] using hvide
    refine ⟨?_, ?_, ?_, ?_⟩
    · intro _ _
      simp [BanqueQuestions.echantillonner_questions, hvide, hnil]
    · intro _
      simp [BanqueQuestions.echantillonner_questions, hvide]
    · intro nombre
      simp [BanqueQuestions.echantillonner_questions, hvide]
    · intro q hmem
      simp [BanqueQuestions.echantillonner_questions, hvide] at hmem
  · refine ⟨?_, ?_, ?_, ?_⟩
    · intro hnd hle
      have hcond : (b.filtrer themes none).length ≤ min 10 NOMBRE_QUESTIONS_MAX := by
        simp [NOMBRE_QUESTIONS_MAX]
        omega
      have htake : (melange (b.filtrer themes none)).take (min 10 NOMBRE_QUESTIONS_MAX) =
          melange (b.filtrer themes none) := by
        apply List.take_of_length_le
        rw [hlen]
        exact hcond
      constructor
      · simp only [BanqueQuestions.echantillonner_questions, hvide, if_false,
          Bool.false_eq_true, hcond, if_pos, if_true, htake]
        rw [hlen]
        omega
      · simp only [BanqueQuestions.echantillonner_questions, hvide, if_false,
          Bool.false_eq_true, hcond, if_pos, if_true, htake]
        exact ((hperm (b.filtrer themes none)).nodup_iff).mpr hnd
    · intro hnil
      simp [hnil] at hvide
    · intro nombre
      have hlt : ∀ l : List Question, (l.take (min nombre NOMBRE_QUESTIONS_MAX)).length ≤ 10 := by
        intro l
        simp only [List.length_take, NOMBRE_QUESTIONS_MAX]
        omega
      simp only [BanqueQuestions.echantillonner_questions, hvide, Bool.false_eq_true, if_false]
      split_ifs with h1 <;>
        simpa using hlt (melange (b.filtrer themes none))
    · intro q hmem
      have hsub : ∀ k, q ∈ (melange (b.filtrer themes none)).take k →
          q ∈ b.filtrer themes none := by
        intro k hk
        exact (hperm (b.filtrer themes none)).mem_iff.mp (List.take_subset k _ hk)
      by_cases hcond : (b.filtrer themes none).length ≤ min 10 NOMBRE_QUESTIONS_MAX
      · simp only [BanqueQuestions.echantillonner_questions, hvide, if_false,
          Bool.false_eq_true, hcond, if_pos, if_true] at hmem
        exact hsub _ hmem
      · simp only [BanqueQuestions.echantillonner_questions, hvide, if_false,
          Bool.false_eq_true, hcond, if_neg, if_true] at hmem
        exact hsub _ hmem

/-- Concrete two-question bank used by witnesses. -/
def bTemoin : BanqueQuestions := { questions := [qTemoin1, qTemoin2] }

/-- Witness for C5: the two-question bank with no theme filter and the
identity permutation returns both questions, without duplicates. -/
theorem c5_echantillonner_taille_witness :
    (bTemoin.echantillonner_questions 10 none id).1.length =
      min (bTemoin.filtrer none none).length 10 ∧
    (bTemoin.echantillonner_questions 10 none id).1.Nodup := by
  have h := (c5_echantillonner_taille bTemoin none id (fun l => List.Perm.refl l)).1
  apply h
  · show ([qTemoin1, qTemoin2] : List Question).Nodup
    simp [List.nodup_cons, qTemoin1, qTemoin2]
  · show ([qTemoin1, qTemoin2] : List Question).length ≤ 10
    simp

/-- C10: with no theme filter and a pool no larger than the clamped
requested count, sampling stores the shuffled list back in the bank: the
new stored list is the permuted old one (so the stored order can change
permanently, as the final conjunct shows on a concrete bank), while as a
set the bank is unchanged. -/
theorem c10_echantillonner_mute_banque (b : BanqueQuestions) (nombre : Nat)
    (melange : List Question → List Question)
    (hperm : ∀ l, (melange l).Perm l)
    (hne : b.questions ≠ [])
    (hcap : b.questions.length ≤ min nombre NOMBRE_QUESTIONS_MAX) :
    (b.echantillonner_questions nombre none melange).2.questions = melange b.questions ∧
    ((b.echantillonner_questions nombre none melange).2.questions).Perm b.questions ∧
    (∃ b2 : BanqueQuestions, ∃ f : List Question → List Question,
      (∀ l, (f l).Perm l) ∧
      (b2.echantillonner_questions 10 none f).2.questions ≠ b2.questions) := by
  have hvide2 : ¬(b.questions.isEmpty = true) := by
    simpa [List.isEmpty_iff] using hne
  have hmain : (b.echantillonner_questions nombre none melange).2.questions =
      melange b.questions := by
    simp only [BanqueQuestions.echantillonner_questions, filtrer_none]
    rw [if_neg hvide2, if_pos hcap]
    simp [optListTruthy]
  refine ⟨hmain, hmain ▸ hperm b.questions, ?_⟩
  refine ⟨bTemoin, List.reverse, fun l => List.reverse_perm l, ?_⟩
  have e : (bTemoin.echantillonner_questions 10 none List.reverse).2.questions =
      [qTemoin2, qTemoin1] := rfl
  rw [e]
  intro hcontra
  have hmap := congrArg (List.map Question.theme) hcontra
  simp only [bTemoin, qTemoin1, qTemoin2, List.map_cons, List.map_nil] at hmap
  exact absurd hmap (by decide)

/-- Witness for C10: the two-question bank reversed by sampling. -/
theorem c10_echantillonner_mute_banque_witness :
    (bTemoin.echantillonner_questions 10 none List.reverse).2.questions =
      List.reverse bTemoin.questions ∧
    ((bTemoin.echantillonner_questions 10 none List.reverse).2.questions).Perm
      bTemoin.questions := by
  have h := c10_echantillonner_mute_banque bTemoin 10 List.reverse
    (fun l => List.reverse_perm l) (by simp [bTemoin, List.cons_ne_nil]) (by decide)
  exact ⟨h.1, h.2.1⟩

/-- Python truthiness of an optional string: None and the empty string are
falsy, so `if theme:` applies the theme filter only for a non-empty one. -/
def optStrTruthy : Option String → Bool
  | none => false
  | some s => !s.isEmpty

/-- Stockage.top_n sort key cle_tri: negated score, negated percentage,
timestamp; Python sorts ascending by this tuple. -/
def Resultats.cle_tri (s : Resultats) : Int × ℚ × String :=
  (-(s.score_total : Int), -s.pourcentage, s.date_heure)

/-- Lexicographic tuple comparison of the sort keys, as Python compares
tuples: the ascending order used by list.sort(key=cle_tri). -/
def cle_le (a b : Resultats) : Bool :=
  decide (a.cle_tri.1 < b.cle_tri.1 ∨
    (a.cle_tri.1 = b.cle_tri.1 ∧ (a.cle_tri.2.1 < b.cle_tri.2.1 ∨
      (a.cle_tri.2.1 = b.cle_tri.2.1 ∧ a.cle_tri.2.2 ≤ b.cle_tri.2.2))))

/-- Stockage.top_n: filter to one theme when a non-empty one is given,
stable-sort ascending by cle_tri (score descending, percentage descending,
timestamp ascending), return the first n.  The stored log is passed in as
tous_scores, standing for charger_tous(). -/
def top_n (tous_scores : List Resultats) (n : Nat) (theme : Option String) : List Resultats :=
  let filtres := if optStrTruthy theme
    then tous_scores.filter (fun s => s.theme == theme.getD "") else tous_scores
  (filtres.mergeSort cle_le).take n

/-- Leaderboard order as the spec states it: higher score first, then
higher percentage, then earlier timestamp. -/
def OrdreClassement (a b : Resultats) : Prop :=
  b.score_total < a.score_total ∨
    (a.score_total = b.score_total ∧ (b.pourcentage < a.pourcentage ∨
      (a.pourcentage = b.pourcentage ∧ a.date_heure ≤ b.date_heure)))

/-- The Boolean tuple comparison agrees with the leaderboard order. -/
theorem cle_le_iff (a b : Resultats) : cle_le a b = true ↔ OrdreClassement a b := by
  simp only [cle_le, Resultats.cle_tri, OrdreClassement, decide_eq_true_eq,
    neg_lt_neg_iff, neg_inj, Nat.cast_lt, Nat.cast_inj]

/-- The tuple comparison is total. -/
theorem cle_le_total (a b : Resultats) : (cle_le a b || cle_le b a) = true := by
  rw [Bool.or_eq_true, cle_le_iff, cle_le_iff, OrdreClassement, OrdreClassement]
  rcases lt_trichotomy a.score_total b.score_total with h | h | h
  · exact Or.inr (Or.inl h)
  · rcases lt_trichotomy a.pourcentage b.pourcentage with h2 | h2 | h2
    · exact Or.inr (Or.inr ⟨h.symm, Or.inl h2⟩)
    · rcases le_total a.date_heure b.date_heure with h3 | h3
      · exact Or.inl (Or.inr ⟨h, Or.inr ⟨h2, h3⟩⟩)
      · exact Or.inr (Or.inr ⟨h.symm, Or.inr ⟨h2.symm, h3⟩⟩)
    · exact Or.inl (Or.inr ⟨h, Or.inl h2⟩)
  · exact Or.inl (Or.inl h)

/-- The tuple comparison is transitive. -/
theorem cle_le_trans (a b c : Resultats) (hab : cle_le a b = true)
    (hbc : cle_le b c = true) : cle_le a c = true := by
  rw [cle_le_iff] at hab hbc ⊢
  rcases hab with h1 | ⟨e1, h1⟩
  · rcases hbc with h2 | ⟨e2, h2⟩
    · exact Or.inl (h2.trans h1)
    · exact Or.inl (e2 ▸ h1)
  · rcases hbc with h2 | ⟨e2, h2⟩
    · exact Or.inl (e1 ▸ h2)
    · refine Or.inr ⟨e1.trans e2, ?_⟩
      rcases h1 with h1 | ⟨p1, h1⟩
      · rcases h2 with h2 | ⟨p2, h2⟩
        · exact Or.inl (h2.trans h1)
        · exact Or.inl (p2 ▸ h1)
      · rcases h2 with h2 | ⟨p2, h2⟩
        · exact Or.inl (p1 ▸ h2)
        · exact Or.inr ⟨p1.trans p2, h1.trans h2⟩

/-- C6: top_n returns at most n records, all drawn from the stored log,
restricted to the given theme when a non-empty one is supplied, pairwise
ordered by score descending, then percentage descending, then timestamp
ascending; in particular any two returned records with equal score and
equal percentage appear in ascending timestamp order. -/
theorem c6_top_n_ordre (tous : List Resultats) (n : Nat) (theme : Option String) :
    (top_n tous n theme).length ≤ n ∧
    (∀ s ∈ top_n tous n theme, s ∈ tous) ∧
    (∀ t : String, theme = some t → t ≠ "" →
      ∀ s ∈ top_n tous n theme, s.theme = t) ∧
    (top_n tous n theme).Pairwise OrdreClassement ∧
    (top_n tous n theme).Pairwise (fun a b =>
      a.score_total = b.score_total → a.pourcentage = b.pourcentage →
        a.date_heure ≤ b.date_heure) := by
  have hpair : ((if optStrTruthy theme
      then tous.filter (fun s => s.theme == theme.getD "") else tous).mergeSort cle_le).Pairwise
      (fun a b => cle_le a b = true) :=
    @List.sorted_mergeSort Resultats cle_le cle_le_trans cle_le_total _
  have hord : (top_n tous n theme).Pairwise OrdreClassement := by
    have := (hpair.sublist (List.take_sublist n _))
    exact this.imp (fun h => (cle_le_iff _ _).mp h)
  refine ⟨?_, ?_, ?_, hord, ?_⟩
  · exact List.length_take_le n _
  · intro s hs
    have h1 := List.take_subset _ _ hs
    have h2 := (List.mergeSort_perm _ cle_le).mem_iff.mp h1
    by_cases ht : optStrTruthy theme
    · rw [if_pos ht] at h2
      exact List.mem_of_mem_filter h2
    · rwa [if_neg ht] at h2
  · intro t htheme hne s hs
    subst htheme
    have htruthy : optStrTruthy (some t) = true := by
      have hfe : t.isEmpty = false := by
        rw [← Bool.not_eq_true, String.isEmpty_iff]
        exact hne
      simp [optStrTruthy, hfe]
    have h1 := List.take_subset _ _ hs
    have h2 := (List.mergeSort_perm _ cle_le).mem_iff.mp h1
    rw [if_pos htruthy] at h2
    have := (List.mem_filter.mp h2).2
    simpa [Option.getD] using this
  · refine hord.imp ?_
    intro a b hab hs hp
    rcases hab with h | ⟨e, h⟩
    · omega
    · rcases h with h | ⟨e2, h⟩
      · exact absurd hp (by rw [hp] at h ⊢; exact absurd h (lt_irrefl _))
      · exact h

/-- Concrete score records used by witnesses: A and B tie on score and
percentage with A earlier, C beats both. -/
def rTemoinA : Resultats :=
  { joueur_nom := "Ana", date_heure := "2026-01-01T00:00:00+00:00", theme := "Histoire",
    niveau := "facile", nombre_questions := 10, bonnes := 5, mauvaises := 5,
    temps_ecoules := 0, score_total := 5, pourcentage := 50 }

/-- Second concrete score record for witnesses. -/
def rTemoinB : Resultats :=
  { joueur_nom := "Bea", date_heure := "2026-01-02T00:00:00+00:00", theme := "Histoire",
    niveau := "facile", nombre_questions := 10, bonnes := 5, mauvaises := 5,
    temps_ecoules := 0, score_total := 5, pourcentage := 50 }

/-- Third concrete score record for witnesses. -/
def rTemoinC : Resultats :=
  { joueur_nom := "Caro", date_heure := "2026-01-03T00:00:00+00:00", theme := "Geographie",
    niveau := "facile", nombre_questions := 10, bonnes := 7, mauvaises := 3,
    temps_ecoules := 0, score_total := 7, pourcentage := 70 }

/-- Witness for C6 on a concrete three-record log. -/
theorem c6_top_n_ordre_witness :
    (top_n [rTemoinB, rTemoinA, rTemoinC] 10 none).length ≤ 10 ∧
    rTemoinA ∈ [rTemoinB, rTemoinA, rTemoinC] := by
  have h := c6_top_n_ordre [rTemoinB, rTemoinA, rTemoinC] 10 none
  have hp := List.mergeSort_perm [rTemoinB, rTemoinA, rTemoinC] cle_le
  have htake : top_n [rTemoinB, rTemoinA, rTemoinC] 10 none =
      ([rTemoinB, rTemoinA, rTemoinC] : List Resultats).mergeSort cle_le := by
    show (([rTemoinB, rTemoinA, rTemoinC] : List Resultats).mergeSort cle_le).take 10 = _
    apply List.take_of_length_le
    rw [hp.length_eq]
    simp
  refine ⟨h.1, h.2.1 rTemoinA ?_⟩
  rw [htake]
  exact hp.mem_iff.mpr (by simp)

/-- Error kinds an operation can surface to its caller. -/
inductive ErreurES where
  | ioError : ErreurES
deriving DecidableEq

/-- Stockage.sauvegarder_score: read the whole log (an unreadable log reads
as empty), append the entry, write the new content to a temporary path and
atomically replace the store with os.replace.  The two Booleans are the
oracle for filesystem failures: lecture_echoue makes charger_tous raise
(caught, yielding []), ecriture_echoue makes the temp write or the replace
raise IOError before the store is replaced.  Returns the persisted content
after the call, the exception surfaced to the caller, and whether an error
message was printed; the except-clause of the source prints and swallows
the IOError, so the caller never sees it. -/
def sauvegarder_score (etat : List Resultats) (entree : Resultats)
    (lecture_echoue ecriture_echoue : Bool) : List Resultats × Option ErreurES × Bool :=
  let tous_scores := if lecture_echoue then [] else etat
  let nouveaux := tous_scores ++ [entree]
  if ecriture_echoue then (etat, none, true) else (nouveaux, none, false)

/-- Counterexample for C9: on a write failure nothing is raised to the
caller (the result's error component is none, while a message is printed),
contradicting the claim that the failure is reported to the caller as an
I/O error kind. -/
theorem c9_sauvegarder_contre :
    (sauvegarder_score [] rTemoinA false true).2.1 = none ∧
    (sauvegarder_score [] rTemoinA false true).2.1 ≠ some ErreurES.ioError ∧
    (sauvegarder_score [] rTemoinA false true).2.2 = true := by
  refine ⟨rfl, ?_, rfl⟩
  intro h
  exact Option.noConfusion h

/-- C9 (amended): when the filesystem write fails during sauvegarder_score
the previously persisted log is unchanged (the new content went to a
temporary path, so no partially written store becomes visible), but the
IOError is caught and printed rather than reported to the caller; on
success the store becomes the old log with the entry appended. -/
theorem c9_sauvegarder_echec (etat : List Resultats) (entree : Resultats) (lecture : Bool) :
    (sauvegarder_score etat entree lecture true).1 = etat ∧
    (sauvegarder_score etat entree lecture true).2.1 = none ∧
    (sauvegarder_score etat entree lecture true).2.2 = true ∧
    (sauvegarder_score etat entree false false).1 = etat ++ [entree] :=
  ⟨rfl, rfl, rfl, rfl⟩

/-- The six fields BanqueQuestions._charger_fichier requires of a record. -/
def champs_requis : List String :=
  ["id", "theme", "niveau", "texte", "options", "bonne_option"]

/-- Outcome of processing one record of a question file: silently skipped
(the bare continue branches), skipped with a printed warning (the except
branch around the coercions), or loaded. -/
inductive ChargementResultat where
  | ignore : ChargementResultat
  | avertit : ChargementResultat
  | charge (q : Question) : ChargementResultat

/-- Processing of one record by the loop body of _charger_fichier: a record
missing a required key is skipped with a bare continue (no warning); then
the six coercions run inside the try block and a failing int() or list()
coercion is caught and logged; finally an out-of-range bonne_option is
skipped with another bare continue (no warning).  Records are Python
dicts, modelled as association lists with distinct keys. -/
def charger_element (element : List (String × JValue)) : ChargementResultat :=
  if champs_requis.all (fun k => (element.lookup k).isSome) then
    match pyInt ((element.lookup "id").getD .null),
          pyList ((element.lookup "options").getD .null),
          pyInt ((element.lookup "bonne_option").getD .null) with
    | some i, some opts, some bo =>
        if 0 ≤ bo ∧ bo < (opts.length : Int) then
          .charge { id := i, theme := pyStr ((element.lookup "theme").getD .null),
                    niveau := pyStr ((element.lookup "niveau").getD .null),
                    texte := pyStr ((element.lookup "texte").getD .null),
                    options := opts, bonne_option := bo }
        else .ignore
    | _, _, _ => .avertit
  else .ignore

/-- Whether a record is loaded. -/
def ChargementResultat.est_charge : ChargementResultat → Bool
  | .charge _ => true
  | _ => false

/-- Whether a record produces a printed warning. -/
def ChargementResultat.est_avertissement : ChargementResultat → Bool
  | .avertit => true
  | _ => false

/-- The record loop of _charger_fichier over the parsed list of a file:
the questions appended to the bank, in file order, and the number of
warnings printed.  File-level I/O (an unreadable file or a file that is
not a list, both only warned about) is outside this per-record model. -/
def charger_fichier : List (List (String × JValue)) → List Question × Nat
  | [] => ([], 0)
  | e :: reste =>
    match charger_element e with
    | .ignore => charger_fichier reste
    | .avertit => ((charger_fichier reste).1, (charger_fichier reste).2 + 1)
    | .charge q => (q :: (charger_fichier reste).1, (charger_fichier reste).2)

/-- A loaded record carries a correct-option index within bounds. -/
theorem charger_element_charge (e : List (String × JValue)) (q : Question)
    (h : charger_element e = .charge q) :
    0 ≤ q.bonne_option ∧ q.bonne_option < (q.options.length : Int) := by
  unfold charger_element at h
  split at h
  · split at h
    · split at h
      · cases h
        assumption
      · exact ChargementResultat.noConfusion h
    · exact ChargementResultat.noConfusion h
  · exact ChargementResultat.noConfusion h

/-- Counterexample for C7: a record missing required fields is dropped,
but without any logged warning; the loaded count plus the warning count
falls short of the record count. -/
theorem c7_charger_contre :
    (charger_fichier [[("theme", JValue.str "Histoire")]]).1.length = 0 ∧
    (charger_fichier [[("theme", JValue.str "Histoire")]]).2 = 0 := by
  constructor <;> rfl

/-- C7 (amended): the loader is total over the record list and drops bad
records while continuing with the rest, where only records failing a type
coercion produce a logged warning (records with missing fields or an
out-of-range correct index are skipped silently); every loaded question
satisfies 0 <= bonne_option < len(options), and so has a non-empty
options list. -/
theorem c7_charger_valide (donnees : List (List (String × JValue))) :
    (∀ q ∈ (charger_fichier donnees).1,
      0 ≤ q.bonne_option ∧ q.bonne_option < (q.options.length : Int) ∧
        q.options ≠ []) ∧
    (charger_fichier donnees).2 =
      donnees.countP (fun e => (charger_element e).est_avertissement) ∧
    (charger_fichier donnees).1.length =
      donnees.countP (fun e => (charger_element e).est_charge) := by
  induction donnees with
  | nil =>
    refine ⟨?_, ?_, ?_⟩
    · intro q hq
      exact absurd hq (List.not_mem_nil q)
    · simp [charger_fichier]
    · simp [charger_fichier]
  | cons e reste ih =>
    obtain ⟨ih1, ih2, ih3⟩ := ih
    cases hel : charger_element e with
    | ignore =>
      refine ⟨?_, ?_, ?_⟩
      · intro q hq
        rw [charger_fichier, hel] at hq
        exact ih1 q hq
      · rw [charger_fichier, hel, List.countP_cons, ih2]
        simp [hel, ChargementResultat.est_avertissement]
      · rw [charger_fichier, hel, List.countP_cons, ih3]
        simp [hel, ChargementResultat.est_charge]
    | avertit =>
      refine ⟨?_, ?_, ?_⟩
      · intro q hq
        rw [charger_fichier, hel] at hq
        exact ih1 q hq
      · rw [charger_fichier, hel, List.countP_cons, ih2]
        simp [hel, ChargementResultat.est_avertissement]
      · rw [charger_fichier, hel, List.countP_cons, ih3]
        simp [hel, ChargementResultat.est_charge]
    | charge q0 =>
      refine ⟨?_, ?_, ?_⟩
      · intro q hq
        rw [charger_fichier, hel] at hq
        rcases List.mem_cons.mp hq with h | h
        · subst h
          obtain ⟨hb1, hb2⟩ := charger_element_charge e q hel
          refine ⟨hb1, hb2, ?_⟩
          intro hnil
          rw [hnil] at hb2
          simp at hb2
          omega
        · exact ih1 q h
      · simp only [charger_fichier, hel]
        simp [List.countP_cons, ih2, hel, ChargementResultat.est_avertissement]
      · simp only [charger_fichier, hel]
        simp [List.countP_cons, ih3, hel, ChargementResultat.est_charge]

/-- A well-formed concrete record, used by the C7 witness. -/
def elementTemoin : List (String × JValue) :=
  [("id", JValue.int 1), ("theme", JValue.str "Histoire"),
   ("niveau", JValue.str "facile"), ("texte", JValue.str "T"),
   ("options", JValue.arr [JValue.str "x", JValue.str "y"]),
   ("bonne_option", JValue.int 0)]

/-- The question the loader builds from elementTemoin. -/
def qCharge : Question :=
  { id := 1, theme := "Histoire", niveau := "facile", texte := "T",
    options := [JValue.str "x", JValue.str "y"], bonne_option := 0 }

/-- Witness for C7: loading the single well-formed record yields one
question with a valid correct-option index and no warning. -/
theorem c7_charger_valide_witness :
    (0 ≤ qCharge.bonne_option ∧ qCharge.bonne_option < (qCharge.options.length : Int) ∧
      qCharge.options ≠ []) ∧
    (charger_fichier [elementTemoin]).2 = 0 := by
  have h := c7_charger_valide [elementTemoin]
  have he : (charger_fichier [elementTemoin]).1 = [qCharge] := rfl
  refine ⟨h.1 qCharge ?_, ?_⟩
  · rw [he]
    exact List.mem_singleton.mpr rfl
  · rw [h.2.1]
    rfl

/-- Any non-empty list of equal elements deduplicates to one element. -/
theorem dedup_length_one_of_const {α : Type} [DecidableEq α] (l : List α) (a : α)
    (hne : l ≠ []) (h : ∀ x ∈ l, x = a) : l.dedup.length = 1 := by
  induction l with
  | nil => exact absurd rfl hne
  | cons x reste ih =>
    cases reste with
    | nil =>
      simp [List.dedup]
    | cons y t =>
      have hx : x = a := h x (List.mem_cons_self x (y :: t))
      have hy : y = a := h y (List.mem_cons_of_mem x (List.mem_cons_self y t))
      have hmem : x ∈ y :: t := by
        rw [hx, hy]
        exact List.mem_cons_self a t
      rw [List.dedup_cons_of_mem hmem]
      exact ih (List.cons_ne_nil y t) (fun z hz => h z (List.mem_cons_of_mem x hz))

/-- A list whose deduplication is a single element is constant. -/
theorem const_of_dedup_length_one {α : Type} [DecidableEq α] (l : List α)
    (h : l.dedup.length = 1) : ∀ x ∈ l, ∀ y ∈ l, x = y := by
  obtain ⟨a, ha⟩ := List.length_eq_one.mp h
  intro x hx y hy
  have hxa : x = a := by
    have := List.mem_dedup.mpr hx
    rw [ha] at this
    exact List.mem_singleton.mp this
  have hya : y = a := by
    have := List.mem_dedup.mpr hy
    rw [ha] at this
    exact List.mem_singleton.mp this
  rw [hxa, hya]

/-- The session whose two questions span two themes. -/
def moteurMixte : MoteurQuiz := MoteurQuiz.initial [qTemoin1, qTemoin2] "Ana"

/-- Counterexample for C8: a session spanning the themes Histoire and
Geographie gets the sentinel "mix", not "mixed", in its summary. -/
theorem c8_theme_contre :
    (moteurMixte.obtenir_resultats "d").theme = "mix" ∧
    (moteurMixte.obtenir_resultats "d").theme ≠ "mixed" := by
  have h : (moteurMixte.obtenir_resultats "d").theme = "mix" := by decide
  refine ⟨h, ?_⟩
  rw [h]
  decide

/-- C8 (amended): for a non-empty session question set the theme (and the
level) of the summary is the single common value when all questions agree
on it, and the sentinel "mix" when several distinct values occur. -/
theorem c8_theme_niveau_agrege (m : MoteurQuiz) (dh : String) (hne : m.questions ≠ []) :
    (∀ t : String, (∀ q ∈ m.questions, q.theme = t) →
      (m.obtenir_resultats dh).theme = t) ∧
    ((∃ q1 ∈ m.questions, ∃ q2 ∈ m.questions, q1.theme ≠ q2.theme) →
      (m.obtenir_resultats dh).theme = "mix") ∧
    (∀ v : String, (∀ q ∈ m.questions, q.niveau = v) →
      (m.obtenir_resultats dh).niveau = v) ∧
    ((∃ q1 ∈ m.questions, ∃ q2 ∈ m.questions, q1.niveau ≠ q2.niveau) →
      (m.obtenir_resultats dh).niveau = "mix") := by
  have hmapne : ∀ f : Question → String, m.questions.map f ≠ [] := by
    intro f hcontra
    exact hne (List.map_eq_nil_iff.mp hcontra)
  refine ⟨?_, ?_, ?_, ?_⟩
  · intro t ht
    have hconst : ∀ x ∈ m.questions.map Question.theme, x = t := by
      intro x hx
      obtain ⟨q, hq, hqx⟩ := List.mem_map.mp hx
      rw [← hqx]
      exact ht q hq
    have h1 := dedup_length_one_of_const (m.questions.map Question.theme) t
      (hmapne Question.theme) hconst
    show (if (m.questions.map Question.theme).dedup.length = 1
      then (m.questions.map Question.theme).head?.getD "" else "mix") = t
    rw [if_pos h1]
    cases hqs : m.questions with
    | nil => exact absurd hqs hne
    | cons q reste =>
      have : q.theme = t := ht q (hqs ▸ List.mem_cons_self q reste)
      simp [hqs, this]
  · rintro ⟨q1, h1, q2, h2, hne12⟩
    show (if (m.questions.map Question.theme).dedup.length = 1
      then (m.questions.map Question.theme).head?.getD "" else "mix") = "mix"
    rw [if_neg]
    intro hlen
    exact hne12 (const_of_dedup_length_one _ hlen q1.theme
      (List.mem_map_of_mem Question.theme h1) q2.theme
      (List.mem_map_of_mem Question.theme h2))
  · intro v hv
    have hconst : ∀ x ∈ m.questions.map Question.niveau, x = v := by
      intro x hx
      obtain ⟨q, hq, hqx⟩ := List.mem_map.mp hx
      rw [← hqx]
      exact hv q hq
    have h1 := dedup_length_one_of_const (m.questions.map Question.niveau) v
      (hmapne Question.niveau) hconst
    show (if (m.questions.map Question.niveau).dedup.length = 1
      then (m.questions.map Question.niveau).head?.getD "" else "mix") = v
    rw [if_pos h1]
    cases hqs : m.questions with
    | nil => exact absurd hqs hne
    | cons q reste =>
      have : q.niveau = v := hv q (hqs ▸ List.mem_cons_self q reste)
      simp [hqs, this]
  · rintro ⟨q1, h1, q2, h2, hne12⟩
    show (if (m.questions.map Question.niveau).dedup.length = 1
      then (m.questions.map Question.niveau).head?.getD "" else "mix") = "mix"
    rw [if_neg]
    intro hlen
    exact hne12 (const_of_dedup_length_one _ hlen q1.niveau
      (List.mem_map_of_mem Question.niveau h1) q2.niveau
      (List.mem_map_of_mem Question.niveau h2))

/-- Witness for C8: a session with a common theme Histoire but two levels
gets theme Histoire and level "mix". -/
theorem c8_theme_niveau_agrege_witness :
    ((MoteurQuiz.initial [qTemoin1, qTemoin3] "Ana").obtenir_resultats "d").theme = "Histoire" ∧
    ((MoteurQuiz.initial [qTemoin1, qTemoin3] "Ana").obtenir_resultats "d").niveau = "mix" := by
  have h := c8_theme_niveau_agrege (MoteurQuiz.initial [qTemoin1, qTemoin3] "Ana") "d"
    (List.cons_ne_nil qTemoin1 [qTemoin3])
  refine ⟨h.1 "Histoire" ?_, h.2.2.2 ⟨qTemoin1, ?_, qTemoin3, ?_, ?_⟩⟩
  · intro q hq
    rcases List.mem_cons.mp hq with h1 | h1
    · rw [h1]
      rfl
    · rw [List.mem_singleton.mp h1]
      rfl
  · exact List.mem_cons_self qTemoin1 [qTemoin3]
  · exact List.mem_cons_of_mem qTemoin1 (List.mem_singleton.mpr rfl)
  · exact fun hcontra => absurd hcontra (by decide)

end Quisqueya
